import Mathlib

set_option maxRecDepth 4000

/-!
Verification development for the home-mcp repository (server.py and the
netdata-plugins python scripts).  Python strings are modelled as `List Char`
(the streams and metric texts in question are ASCII); Python floats are
modelled as rationals; Python dicts are modelled as ordered association
lists with last-write-wins insertion, mirroring CPython dict semantics.
-/

/-- Python `str.split(sep)` generalised to a character predicate: splits at
every separator character and keeps empty fragments, so
`pySplitP p [] = [[]]` just as `"".split(c) == [""]` in Python. -/
def pySplitP (p : Char → Bool) : List Char → List (List Char)
  | [] => [[]]
  | c :: t =>
    let r := pySplitP p t
    if p c then [] :: r
    else
      match r with
      | [] => [[c]]
      | h :: t2 => (c :: h) :: t2

/-- Python `str.split(sep)` for a one-character separator. -/
def pySplitOn (sep : Char) (l : List Char) : List (List Char) :=
  pySplitP (fun c => c = sep) l

/-- Python `str.strip()`: drop whitespace from both ends. -/
def pyStrip (l : List Char) : List Char :=
  ((l.dropWhile Char.isWhitespace).reverse.dropWhile Char.isWhitespace).reverse

/-- Python `str.split()` with no argument: split on whitespace runs,
discarding empty fragments. -/
def pySplitWs (l : List Char) : List (List Char) :=
  (pySplitP Char.isWhitespace l).filter (fun w => w ≠ [])

/-- Numeric value of a list of decimal digit characters. -/
def natOfDigits (ds : List Char) : Nat :=
  ds.foldl (fun n c => 10 * n + (c.toNat - 48)) 0

/-- Optional leading sign of a Python numeric literal. -/
def pySign : List Char → (Int × List Char)
  | '+' :: t => (1, t)
  | '-' :: t => (-1, t)
  | l => (1, l)

/-- Model of Python `float(s)` restricted to finite decimal literals
(optional sign, integer and fraction digit runs, optional exponent),
returning the exact rational value; `None` models a raised `ValueError`.
IEEE special forms (`inf`, `nan`) and digit underscores are outside the
rational model and are not produced by the metric sources at issue. -/
def pyFloat? (s0 : List Char) : Option ℚ :=
  let s := pyStrip s0
  let sg := (pySign s).1
  let s1 := (pySign s).2
  let ip := (s1.span Char.isDigit).1
  let s2 := (s1.span Char.isDigit).2
  let fp := match s2 with
            | '.' :: t => (t.span Char.isDigit).1
            | _ => []
  let s3 := match s2 with
            | '.' :: t => (t.span Char.isDigit).2
            | _ => s2
  if ip = [] ∧ fp = [] then none
  else
    let mant : ℚ := (sg : ℚ) * ((natOfDigits ip : ℚ) + (natOfDigits fp : ℚ) / (10 : ℚ) ^ fp.length)
    match s3 with
    | [] => some mant
    | e :: t =>
      if e = 'e' ∨ e = 'E' then
        let esg := (pySign t).1
        let t1 := (pySign t).2
        let ed := (t1.span Char.isDigit).1
        let t2 := (t1.span Char.isDigit).2
        if ed = [] ∨ t2 ≠ [] then none
        else some (mant * (10 : ℚ) ^ (esg * (natOfDigits ed : ℤ)))
      else none

/-- Python dict assignment `m[k] = v` on an ordered association list:
replace in place if the key is present, append otherwise. -/
def dictInsert {α β : Type} [DecidableEq α] : List (α × β) → α → β → List (α × β)
  | [], k, v => [(k, v)]
  | (k2, v2) :: t, k, v => if k2 = k then (k, v) :: t else (k2, v2) :: dictInsert t k v

/-- Python dict lookup `m.get(k)` on an ordered association list. -/
def dictGet {α β : Type} [DecidableEq α] : List (α × β) → α → Option β
  | [], _ => none
  | (k2, v) :: t, k => if k2 = k then some v else dictGet t k

theorem dictGet_dictInsert_self {α β : Type} [DecidableEq α]
    (m : List (α × β)) (k : α) (v : β) : dictGet (dictInsert m k v) k = some v := by
  induction m with
  | nil => simp [dictInsert, dictGet]
  | cons p t ih =>
    obtain ⟨k2, v2⟩ := p
    by_cases hk : k2 = k
    · subst hk; simp [dictInsert, dictGet]
    · simp only [dictInsert, if_neg hk, dictGet]
      exact ih

theorem dictGet_dictInsert_ne {α β : Type} [DecidableEq α]
    (m : List (α × β)) (k k2 : α) (v : β) (h : k2 ≠ k) :
    dictGet (dictInsert m k v) k2 = dictGet m k2 := by
  induction m with
  | nil => simp [dictInsert, dictGet, if_neg (Ne.symm h)]
  | cons p t ih =>
    obtain ⟨k3, v3⟩ := p
    by_cases hk : k3 = k
    · subst hk
      simp [dictInsert, dictGet, if_neg (Ne.symm h)]
    · simp only [dictInsert, if_neg hk, dictGet]
      rw [ih]

-- quick sanity examples
example : pySplitOn '\n' "a\nb".data = ["a".data, "b".data] := by decide
example : pySplitWs "  a  b ".data = ["a".data, "b".data] := by decide
example : pyFloat? "bar".data = none := by decide

theorem pyFloat_three_point_five : pyFloat? ['3', '.', '5'] = some ((7 : ℚ) / 2) := by
  have h3 : natOfDigits ['3'] = 3 := by decide
  have h5 : natOfDigits ['5'] = 5 := by decide
  have hstrip : pyStrip ['3', '.', '5'] = ['3', '.', '5'] := by decide
  have hsign : pySign ['3', '.', '5'] = (1, ['3', '.', '5']) := by decide
  have hspan1 : List.span Char.isDigit ['3', '.', '5'] = (['3'], ['.', '5']) := by decide
  have hspan2 : List.span Char.isDigit ['5'] = (['5'], []) := by decide
  simp +decide only [pyFloat?, hstrip, hsign, hspan1, hspan2, h3, h5, List.length_singleton]
  norm_num

/-- Body of the per-line loop of `parse_prometheus_metrics` in
`netdata-plugins/earnings_monitor.chart.py` (lines 81-109) and, identically,
in `reth_monitor.chart.py` (lines 45-74): strip the line; skip empty and
comment lines; for a labelled line take the text before the first brace as
the key and the first whitespace token after the last closing brace as the
value; otherwise take the first two whitespace tokens; drop the line when
the value does not parse as a float (the bare `except` / `ValueError`
handlers).  Returns the key/value pair the line contributes, if any. -/
def lineKV_earnings (line0 : List Char) : Option (List Char × ℚ) :=
  let line := pyStrip line0
  if line = [] ∨ line.headD ' ' = '#' then none
  else
    let kv? : Option (List Char × List Char) :=
      if '\x7b' ∈ line then
        let name := (pySplitOn '\x7b' line).headD []
        let vp := pyStrip ((pySplitOn '\x7d' line).getLastD [])
        match pySplitWs vp with
        | [] => none
        | v :: _ => some (name, v)
      else
        match pySplitWs line with
        | a :: v :: _ => some (a, v)
        | _ => none
    match kv? with
    | none => none
    | some kv =>
      match pyFloat? kv.2 with
      | none => none
      | some q => some (kv.1, q)

/-- `parse_prometheus_metrics` of `earnings_monitor.chart.py` (lines 81-109):
split on newlines and fold the per-line contribution into a dict. -/
def parse_prometheus_metrics_earnings (text : List Char) : List (List Char × ℚ) :=
  (pySplitOn '\n' text).foldl
    (fun m l =>
      match lineKV_earnings l with
      | none => m
      | some kv => dictInsert m kv.1 kv.2) []

/-- Body of the per-line loop of `parse_prometheus_metrics` in
`netdata-plugins/lighthouse_monitor.chart.py` (lines 66-101).  Unlike the
earnings/reth variant, for a labelled line it rebuilds the key as
`name{labels}` (labels taken between the first brace pair), keeping
label-qualified metrics distinct. -/
def lineKV_lighthouse (line0 : List Char) : Option (List Char × ℚ) :=
  let line := pyStrip line0
  if line = [] ∨ line.headD ' ' = '#' then none
  else
    let kv? : Option (List Char × List Char) :=
      if '\x7b' ∈ line then
        let name := (pySplitOn '\x7b' line).headD []
        let labelsPart := (pySplitOn '\x7d' ((pySplitOn '\x7b' line).getD 1 [])).headD []
        let vp := pyStrip ((pySplitOn '\x7d' line).getLastD [])
        match pySplitWs vp with
        | [] => none
        | v :: _ =>
          let key := if labelsPart = [] then name
                     else name ++ '\x7b' :: (labelsPart ++ ['\x7d'])
          some (key, v)
      else
        match pySplitWs line with
        | a :: v :: _ => some (a, v)
        | _ => none
    match kv? with
    | none => none
    | some kv =>
      match pyFloat? kv.2 with
      | none => none
      | some q => some (kv.1, q)

/-- `parse_prometheus_metrics` of `lighthouse_monitor.chart.py`
(lines 66-101). -/
def parse_prometheus_metrics_lighthouse (text : List Char) : List (List Char × ℚ) :=
  (pySplitOn '\n' text).foldl
    (fun m l =>
      match lineKV_lighthouse l with
      | none => m
      | some kv => dictInsert m kv.1 kv.2) []

theorem pySplitP_ne_nil (p : Char → Bool) (l : List Char) : pySplitP p l ≠ [] := by
  cases l with
  | nil => simp [pySplitP]
  | cons c t =>
    simp only [pySplitP]
    by_cases h : p c
    · simp [h]
    · simp only [h, if_false, Bool.false_eq_true]
      cases pySplitP p t <;> simp

theorem pySplitOn_append_sep (sep : Char) (a b : List Char) :
    pySplitOn sep (a ++ sep :: b) = pySplitOn sep a ++ pySplitOn sep b := by
  induction a with
  | nil =>
    simp [pySplitOn, pySplitP]
  | cons c t ih =>
    simp only [pySplitOn, pySplitP, List.cons_append] at *
    by_cases h : c = sep
    · simp [h, ih]
    · simp only [decide_eq_true_eq, h, if_false, List.append_eq]
      rw [ih]
      rcases he : pySplitP (fun x => decide (x = sep)) t with _ | ⟨w, ws⟩
      · exact absurd he (pySplitP_ne_nil _ t)
      · simp [he]

theorem pySplitOn_no_sep (sep : Char) (m : List Char) (h : sep ∉ m) :
    pySplitOn sep m = [m] := by
  induction m with
  | nil => simp [pySplitOn, pySplitP]
  | cons c t ih =>
    simp only [List.mem_cons, not_or] at h
    simp only [pySplitOn, pySplitP, decide_eq_true_eq]
    rw [if_neg (fun e => h.1 e.symm)]
    rw [show pySplitP (fun x => decide (x = sep)) t = pySplitOn sep t from rfl, ih h.2]

/-- Claim C1.  The claim states that EVERY exposition-decoder implementation
in the repository keys a `name{labels} value` line by the name with the
label block included verbatim.  This holds for the lighthouse variant but
not for the earnings/reth variant, which keys by the bare metric name: on
the line `foo{a="b"} 3.5` the earnings decoder yields the entry
`"foo" -> 3.5`, so label-qualified metrics with the same name collapse
(defeating its own caller, which sums all `validator_balance_gwei...`
entries).  This theorem evaluates both decoders at that line. -/
theorem claim_C1 :
    parse_prometheus_metrics_earnings "foo\x7ba=\"b\"\x7d 3.5".data
      = [("foo".data, (7 : ℚ) / 2)]
    ∧ parse_prometheus_metrics_lighthouse "foo\x7ba=\"b\"\x7d 3.5".data
      = [("foo\x7ba=\"b\"\x7d".data, (7 : ℚ) / 2)] := by
  have hsplit : pySplitOn '\n' "foo\x7ba=\"b\"\x7d 3.5".data
      = ["foo\x7ba=\"b\"\x7d 3.5".data] := pySplitOn_no_sep _ _ (by decide)
  have hws : pySplitWs (pyStrip ((pySplitOn '\x7d' (pyStrip "foo\x7ba=\"b\"\x7d 3.5".data)).getLastD []))
      = ["3.5".data] := by decide
  have hname : (pySplitOn '\x7b' (pyStrip "foo\x7ba=\"b\"\x7d 3.5".data)).headD [] = "foo".data := by
    decide
  have hkey : "foo".data ++ '\x7b' :: ("a=\"b\"".data ++ ['\x7d']) = "foo\x7ba=\"b\"\x7d".data := by
    decide
  have hlp : (pySplitOn '\x7d' ((pySplitOn '\x7b' (pyStrip "foo\x7ba=\"b\"\x7d 3.5".data)).getD 1 [])).headD []
      = "a=\"b\"".data := by decide
  constructor
  · have hkv : lineKV_earnings "foo\x7ba=\"b\"\x7d 3.5".data = some ("foo".data, (7 : ℚ) / 2) := by
      simp +decide only [lineKV_earnings, hws, hname, pyFloat_three_point_five, if_true,
        if_false]
    simp only [parse_prometheus_metrics_earnings, hsplit, List.foldl_cons, List.foldl_nil, hkv]
    simp [dictInsert]
  · have hkv : lineKV_lighthouse "foo\x7ba=\"b\"\x7d 3.5".data
        = some ("foo\x7ba=\"b\"\x7d".data, (7 : ℚ) / 2) := by
      simp +decide only [lineKV_lighthouse, hws, hname, hlp, hkey, pyFloat_three_point_five,
        if_true, if_false]
    simp only [parse_prometheus_metrics_lighthouse, hsplit, List.foldl_cons, List.foldl_nil, hkv]
    simp [dictInsert]

/-- Claim C8.  The earnings exposition decoder is total and per-line
fault-isolated: a line whose value does not parse (such as `foo bar`)
contributes no entry, and removing such a malformed line from the input
text does not change the decoding of any other line. -/
theorem claim_C8 (a b m : List Char) (hnl : '\n' ∉ m)
    (hm : lineKV_earnings m = none) :
    parse_prometheus_metrics_earnings (a ++ '\n' :: (m ++ '\n' :: b))
      = parse_prometheus_metrics_earnings (a ++ '\n' :: b)
    ∧ lineKV_earnings "foo bar".data = none := by
  refine ⟨?_, by decide⟩
  unfold parse_prometheus_metrics_earnings
  rw [pySplitOn_append_sep '\n' a (m ++ '\n' :: b), pySplitOn_append_sep '\n' m b,
    pySplitOn_no_sep '\n' m hnl, pySplitOn_append_sep '\n' a b,
    List.foldl_append, List.foldl_append, List.foldl_append]
  simp only [List.foldl_cons, List.foldl_nil, hm]

/-- Witness for claim C8 at a concrete three-line input. -/
theorem claim_C8_witness :
    parse_prometheus_metrics_earnings
        ("a 1".data ++ '\n' :: ("foo bar".data ++ '\n' :: "b 2".data))
      = parse_prometheus_metrics_earnings ("a 1".data ++ '\n' :: "b 2".data)
    ∧ lineKV_earnings "foo bar".data = none :=
  claim_C8 "a 1".data "b 2".data "foo bar".data (by decide) (by decide)

/-- One value of the state dict of `earnings_monitor.chart.py`
(`state[key]` as written at lines 164-169 and 189-194). -/
structure RateEntry where
  last_balance : ℚ
  last_time : ℚ
  hourly_rate : ℚ
  balance_diff : ℚ
  deriving DecidableEq

/-- `calculate_earnings` of `earnings_monitor.chart.py` (lines 159-196).
`time.time()` is passed in as `now`; the mutated state dict is returned
alongside the `(hourly_rate, balance_diff, daily_estimate)` result. -/
def calculate_earnings (current_balance : ℚ) (state : List (String × RateEntry))
    (keyPref : String) (now : ℚ) : (ℚ × ℚ × ℚ) × List (String × RateEntry) :=
  match dictGet state keyPref with
  | none => ((0, 0, 0), dictInsert state keyPref ⟨current_balance, now, 0, 0⟩)
  | some prev =>
    let time_diff := now - prev.last_time
    let balance_diff := current_balance - prev.last_balance
    let hourly_rate := if 0 < time_diff then balance_diff / (time_diff / 3600) else 0
    let daily_estimate := hourly_rate * 24
    ((hourly_rate, balance_diff, daily_estimate),
     dictInsert state keyPref ⟨current_balance, now, hourly_rate, balance_diff⟩)

/-- Python `int()` on a float value: truncation toward zero. -/
def pyInt (q : ℚ) : ℤ := if q < 0 then ⌈q⌉ else ⌊q⌋

/-- The per-cycle data dict filled by `get_data` of
`earnings_monitor.chart.py` (lines 199-229). -/
structure EarnData where
  eth_hourly_rate : ℤ
  eth_balance_diff : ℤ
  eth_daily_eth : ℤ
  tezos_hourly_rate : ℤ
  tezos_balance_diff : ℤ
  tezos_daily_xtz : ℤ
  deriving DecidableEq

/-- `get_data` of `earnings_monitor.chart.py` (lines 199-229).  The two
balance fetches are passed in as `Option` values (`none` models a fetch
that returned `None`); the state dict that `save_state` persists is
returned as the second component. -/
def get_data (ethBalance tezosBalance : Option ℚ)
    (state0 : List (String × RateEntry)) (nowEth nowTez : ℚ) :
    EarnData × List (String × RateEntry) :=
  let ethRes : (ℤ × ℤ × ℤ) × List (String × RateEntry) :=
    match ethBalance with
    | some b =>
      let r := calculate_earnings b state0 "eth" nowEth
      ((pyInt r.1.1, pyInt r.1.2.1, pyInt r.1.2.2), r.2)
    | none => ((0, 0, 0), state0)
  let tezRes : (ℤ × ℤ × ℤ) × List (String × RateEntry) :=
    match tezosBalance with
    | some b =>
      let r := calculate_earnings b ethRes.2 "tezos" nowTez
      ((pyInt r.1.1, pyInt r.1.2.1, pyInt r.1.2.2), r.2)
    | none => ((0, 0, 0), ethRes.2)
  (⟨ethRes.1.1, ethRes.1.2.1, ethRes.1.2.2, tezRes.1.1, tezRes.1.2.1, tezRes.1.2.2⟩,
   tezRes.2)

theorem calculate_earnings_preserves_other (b : ℚ) (st : List (String × RateEntry))
    (k k2 : String) (n : ℚ) (h : k2 ≠ k) :
    dictGet (calculate_earnings b st k n).2 k2 = dictGet st k2 := by
  rcases hg : dictGet st k with _ | p
  · simp only [calculate_earnings, hg]
    exact dictGet_dictInsert_ne st k k2 _ h
  · simp only [calculate_earnings, hg]
    exact dictGet_dictInsert_ne st k k2 _ h

/-- Claim C2.  `calculate_earnings`: on a first observation of a prefix it
stores the baseline and returns all zeros; on a later observation it
returns `delta = current - last`, `hourly_rate = delta / (Δt / 3600)` when
`Δt > 0` and `0` otherwise, `daily = hourly_rate * 24`, and overwrites the
stored entry with the new value/timestamp/rate/delta; and the three
concrete scenarios of the spec hold. -/
theorem claim_C2 (st : List (String × RateEntry)) (k : String) (cv now : ℚ) :
    (dictGet st k = none →
      calculate_earnings cv st k now = ((0, 0, 0), dictInsert st k ⟨cv, now, 0, 0⟩))
    ∧ (∀ p, dictGet st k = some p →
        calculate_earnings cv st k now =
          ((if 0 < now - p.last_time then (cv - p.last_balance) / ((now - p.last_time) / 3600) else 0,
            cv - p.last_balance,
            (if 0 < now - p.last_time then (cv - p.last_balance) / ((now - p.last_time) / 3600) else 0) * 24),
           dictInsert st k
             ⟨cv, now,
              if 0 < now - p.last_time then (cv - p.last_balance) / ((now - p.last_time) / 3600) else 0,
              cv - p.last_balance⟩))
    ∧ (∀ t0 : ℚ,
        calculate_earnings 100 [] "x" t0 = ((0, 0, 0), [("x", ⟨100, t0, 0, 0⟩)])
        ∧ (calculate_earnings 200 [("x", ⟨100, t0, 0, 0⟩)] "x" (t0 + 3600)).1 = (100, 100, 2400)
        ∧ (calculate_earnings 150 [("x", ⟨100, t0, 0, 0⟩)] "x" t0).1 = (0, 50, 0)) := by
  have hg : ∀ e : RateEntry, dictGet [("x", e)] "x" = some e := fun e => by simp [dictGet]
  refine ⟨fun h => by simp [calculate_earnings, h], fun p hp => by simp [calculate_earnings, hp],
    fun t0 => ⟨?_, ?_, ?_⟩⟩
  · simp [calculate_earnings, dictGet, dictInsert]
  · simp only [calculate_earnings, hg ⟨100, t0, 0, 0⟩]
    rw [show t0 + 3600 - (⟨100, t0, 0, 0⟩ : RateEntry).last_time = (3600 : ℚ) from by ring]
    norm_num
  · simp only [calculate_earnings, hg ⟨100, t0, 0, 0⟩]
    rw [show t0 - (⟨100, t0, 0, 0⟩ : RateEntry).last_time = (0 : ℚ) from by ring]
    norm_num

/-- Witness for claim C2 at `t0 = 0`, with the first-observation
hypothesis discharged on the empty state. -/
theorem claim_C2_witness :
    calculate_earnings 100 [] "x" 0 = ((0, 0, 0), dictInsert [] "x" ⟨100, 0, 0, 0⟩)
    ∧ (calculate_earnings 200 [("x", ⟨100, 0, 0, 0⟩)] "x" (0 + 3600)).1 = (100, 100, 2400)
    ∧ (calculate_earnings 150 [("x", ⟨100, 0, 0, 0⟩)] "x" 0).1 = (0, 50, 0) :=
  ⟨(claim_C2 [] "x" 100 0).1 rfl, ((claim_C2 [] "x" 100 0).2.2 0).2.1,
   ((claim_C2 [] "x" 100 0).2.2 0).2.2⟩

/-- Claim C10.  If a chain's balance fetch fails (`None`), `get_data`
reports zero for that chain's hourly rate, balance change and daily
estimate, and the chain's stored rate-state entry is left unchanged (even
when the other chain updates), so the next successful observation is
computed against the old baseline. -/
theorem claim_C10 (ethB tezB : Option ℚ) (st : List (String × RateEntry)) (nE nT : ℚ) :
    ((get_data none tezB st nE nT).1.eth_hourly_rate = 0
     ∧ (get_data none tezB st nE nT).1.eth_balance_diff = 0
     ∧ (get_data none tezB st nE nT).1.eth_daily_eth = 0
     ∧ dictGet (get_data none tezB st nE nT).2 "eth" = dictGet st "eth")
    ∧ ((get_data ethB none st nE nT).1.tezos_hourly_rate = 0
     ∧ (get_data ethB none st nE nT).1.tezos_balance_diff = 0
     ∧ (get_data ethB none st nE nT).1.tezos_daily_xtz = 0
     ∧ dictGet (get_data ethB none st nE nT).2 "tezos" = dictGet st "tezos") := by
  constructor
  · rcases tezB with _ | b
    · simp [get_data]
    · refine ⟨by simp [get_data], by simp [get_data], by simp [get_data], ?_⟩
      have h2 : (get_data none (some b) st nE nT).2 = (calculate_earnings b st "tezos" nT).2 := by
        simp [get_data]
      rw [h2]
      exact calculate_earnings_preserves_other b st "tezos" "eth" nT (by decide)
  · rcases ethB with _ | b
    · simp [get_data]
    · refine ⟨by simp [get_data], by simp [get_data], by simp [get_data], ?_⟩
      have h2 : (get_data (some b) none st nE nT).2 = (calculate_earnings b st "eth" nE).2 := by
        simp [get_data]
      rw [h2]
      exact calculate_earnings_preserves_other b st "eth" "tezos" nE (by decide)

/-- Static per-server configuration consumed by `get_server_context`
(`CONFIG['servers'][name]` in server.py). -/
structure ServerCfg where
  description : Option String
  role : Option String
  deriving DecidableEq

/-- The parts of `CONFIG` that the netdata tools read. -/
structure Config where
  servers : List (String × ServerCfg)
  deriving DecidableEq

/-- A decoded netdata JSON payload, restricted to the fields server.py
reads (`hostname` from `info`, `labels`/`data`/`after`/`before`/
`dimension_names`/`dimension_ids` from `data`, the chart-id keys of
`charts` from `charts`).  `none` models an absent key. -/
structure JObj where
  hostname : Option String
  labels : Option (List String)
  data : Option (List (List ℚ))
  after : Option ℚ
  before : Option ℚ
  dimension_names : Option (List String)
  dimension_ids : Option (List String)
  charts : Option (List String)
  deriving DecidableEq

/-- Outcome of one HTTP GET issued by `query_netdata` (server.py lines
31-41): a timeout, a non-success status, any other transport/decoding
exception (message of `str(e)`), or a 200 response with decoded JSON. -/
inductive Transport where
  | timeout
  | httpStatus (code : Nat)
  | exn (msg : String)
  | ok200 (j : JObj)
  deriving DecidableEq

/-- Return value of `query_netdata`: either the error dict
`{'error': msg}` or the decoded payload. -/
inductive NResp where
  | err (msg : String)
  | ok (j : JObj)
  deriving DecidableEq

/-- `query_netdata` of server.py (lines 23-41), with the network modelled
as an oracle from server name and endpoint to a `Transport` outcome. -/
def query_netdata (cfg : Config) (net : String → String → Transport)
    (name endpoint : String) : NResp :=
  match dictGet cfg.servers name with
  | none => .err ("Unknown server: " ++ name)
  | some _ =>
    match net name endpoint with
    | .ok200 j => .ok j
    | .httpStatus c => .err ("HTTP " ++ toString c)
    | .timeout => .err "Request timed out"
    | .exn m => .err m

/-- Result of `parse_netdata_metric` (server.py lines 262-285): the error
dict is passed through; otherwise the canonical labels/data shape is
built, with `latest = dict(zip(labels, data[0]))` only when both `data`
and `labels` are non-empty. -/
inductive Parsed where
  | perr (msg : String)
  | pok (labels : List String) (data : List (List ℚ)) (points : Nat)
      (after before : Option ℚ) (dimension_names dimension_ids : List String)
      (latest : Option (List (String × ℚ)))
  deriving DecidableEq

/-- `parse_netdata_metric` of server.py (lines 262-285). -/
def parse_netdata_metric (d : NResp) : Parsed :=
  match d with
  | .err m => .perr m
  | .ok j =>
    let labels := j.labels.getD []
    let data := j.data.getD []
    let latest : Option (List (String × ℚ)) :=
      match data, labels with
      | row :: _, _ :: _ => some (labels.zip row)
      | _, _ => none
    .pok labels data data.length j.after j.before (j.dimension_names.getD [])
      (j.dimension_ids.getD []) latest

/-- `get_server_context` of server.py (lines 254-260). -/
def get_server_context (cfg : Config) (name : String) : String :=
  match dictGet cfg.servers name with
  | none => ""
  | some s => s.description.getD "" ++ " (" ++ s.role.getD "unknown role" ++ ")"

/-- One value of the `results` dict built by the
`get_all_servers_overview` branch of `call_tool` (server.py lines
445-470). -/
structure OverviewEntry where
  status : String
  context : String
  hostname : Option String
  cpu : Parsed
  ram : Parsed
  deriving DecidableEq

/-- The per-server body of the `get_all_servers_overview` loop (server.py
lines 448-468): query `info`, the one-point CPU chart and the one-point
RAM chart, then build the entry; `status` is `online` iff `info` carried
no error, and `hostname` is `None` when offline. -/
def overviewEntry (cfg : Config) (net : String → String → Transport)
    (name : String) : OverviewEntry :=
  let info := query_netdata cfg net name "info"
  let cpu := parse_netdata_metric
    (query_netdata cfg net name "data?chart=system.cpu&points=1&after=-60")
  let ram := parse_netdata_metric
    (query_netdata cfg net name "data?chart=system.ram&points=1&after=-60")
  match info with
  | .err _ => ⟨"offline", get_server_context cfg name, none, cpu, ram⟩
  | .ok j => ⟨"online", get_server_context cfg name, some (j.hostname.getD "unknown"), cpu, ram⟩

/-- The `get_all_servers_overview` branch of `call_tool` (server.py lines
445-470): one `results[server_name] = ...` insertion per configured
server. -/
def get_all_servers_overview (cfg : Config) (net : String → String → Transport) :
    List (String × OverviewEntry) :=
  cfg.servers.foldl (fun acc p => dictInsert acc p.1 (overviewEntry cfg net p.1)) []

theorem dictGet_eq_none_of_not_mem {α β : Type} [DecidableEq α]
    (m : List (α × β)) (k : α) (h : k ∉ m.map Prod.fst) : dictGet m k = none := by
  induction m with
  | nil => rfl
  | cons p t ih =>
    simp only [List.map_cons, List.mem_cons, not_or] at h
    obtain ⟨k2, v⟩ := p
    simp only [dictGet]
    rw [if_neg (fun e => h.1 e.symm)]
    exact ih h.2

theorem dictInsert_absent {α β : Type} [DecidableEq α]
    (m : List (α × β)) (k : α) (v : β) (h : dictGet m k = none) :
    dictInsert m k v = m ++ [(k, v)] := by
  induction m with
  | nil => rfl
  | cons p t ih =>
    obtain ⟨k2, v2⟩ := p
    simp only [dictGet] at h
    by_cases hk : k2 = k
    · rw [if_pos hk] at h; exact absurd h (by simp)
    · rw [if_neg hk] at h
      simp only [dictInsert, if_neg hk, List.cons_append, List.cons.injEq, true_and]
      exact ih h

theorem dictGet_append_left_none {α β : Type} [DecidableEq α]
    (a b : List (α × β)) (k : α) (h : dictGet a k = none) :
    dictGet (a ++ b) k = dictGet b k := by
  induction a with
  | nil => rfl
  | cons p t ih =>
    obtain ⟨k2, v⟩ := p
    simp only [dictGet] at h
    by_cases hk : k2 = k
    · rw [if_pos hk] at h; exact absurd h (by simp)
    · rw [if_neg hk] at h
      simp only [List.cons_append, dictGet, if_neg hk]
      exact ih h

theorem foldl_dictInsert_eq_append {α β γ : Type} [DecidableEq α]
    (f : α → β) (l : List (α × γ)) (acc : List (α × β))
    (habs : ∀ p ∈ l, dictGet acc p.1 = none) (hnd : (l.map Prod.fst).Nodup) :
    l.foldl (fun a p => dictInsert a p.1 (f p.1)) acc
      = acc ++ l.map (fun p => (p.1, f p.1)) := by
  induction l generalizing acc with
  | nil => simp
  | cons p t ih =>
    obtain ⟨k, c⟩ := p
    simp only [List.map_cons, List.nodup_cons] at hnd
    have hacc : dictGet acc k = none := habs (k, c) (List.mem_cons_self _ _)
    have hstep : dictInsert acc k (f k) = acc ++ [(k, f k)] :=
      dictInsert_absent acc k (f k) hacc
    simp only [List.foldl_cons]
    rw [hstep, ih]
    · simp
    · intro q hq
      rw [dictGet_append_left_none _ _ _ (habs q (List.mem_cons_of_mem _ hq))]
      simp only [dictGet]
      rw [if_neg (fun e => hnd.1 (by rw [e]; exact List.mem_map_of_mem Prod.fst hq))]
    · exact hnd.2

theorem dictGet_map_self {α β γ : Type} [DecidableEq α]
    (f : α → β) (l : List (α × γ)) (s : α) (hs : s ∈ l.map Prod.fst) :
    dictGet (l.map (fun p => (p.1, f p.1))) s = some (f s) := by
  induction l with
  | nil => simp at hs
  | cons p t ih =>
    obtain ⟨k, c⟩ := p
    simp only [List.map_cons, dictGet]
    by_cases hk : k = s
    · subst hk; simp
    · rw [if_neg hk]
      simp only [List.map_cons, List.mem_cons] at hs
      exact ih (hs.resolve_left (fun e => hk e.symm))

/-- Claim C3.  `get_all_servers_overview` is a flat fan-out: the aggregate
contains exactly one entry per configured server (same keys, in order);
each entry is determined solely by that server's own backend responses
(so an error on one target can neither remove nor alter another target's
result); and a target whose `info` query failed still gets a structured
entry, marked `offline` with a null hostname.  The function is total, so
no exception escapes the call. -/
theorem claim_C3 (cfg : Config) (net net2 : String → String → Transport) (s : String)
    (hnd : (cfg.servers.map Prod.fst).Nodup) (hag : ∀ e, net s e = net2 s e) :
    ((get_all_servers_overview cfg net).map Prod.fst = cfg.servers.map Prod.fst)
    ∧ (∀ t, t ∈ cfg.servers.map Prod.fst →
        dictGet (get_all_servers_overview cfg net) t = some (overviewEntry cfg net t))
    ∧ overviewEntry cfg net s = overviewEntry cfg net2 s
    ∧ (∀ t m, query_netdata cfg net t "info" = NResp.err m →
        (overviewEntry cfg net t).status = "offline"
        ∧ (overviewEntry cfg net t).hostname = none) := by
  have hmap : get_all_servers_overview cfg net
      = cfg.servers.map (fun p => (p.1, overviewEntry cfg net p.1)) := by
    have h := foldl_dictInsert_eq_append (overviewEntry cfg net) cfg.servers []
      (fun p _ => rfl) hnd
    simpa [get_all_servers_overview] using h
  refine ⟨?_, ?_, ?_, ?_⟩
  · rw [hmap]
    simp [List.map_map, Function.comp]
  · intro t ht
    rw [hmap]
    exact dictGet_map_self (overviewEntry cfg net) cfg.servers t ht
  · unfold overviewEntry query_netdata
    rw [hag "info", hag "data?chart=system.cpu&points=1&after=-60",
      hag "data?chart=system.ram&points=1&after=-60"]
  · intro t m h
    unfold overviewEntry
    rw [h]
    exact ⟨rfl, rfl⟩

/-- A decoded payload with every optional field absent. -/
def jEmpty : JObj := ⟨none, none, none, none, none, none, none, none⟩

/-- Two-server demo configuration. -/
def cfgAB : Config := ⟨[("a", ⟨none, none⟩), ("b", ⟨none, none⟩)]⟩

/-- Demo oracle: server `b` times out on every endpoint, server `a`
answers 200 with an empty payload. -/
def netB : String → String → Transport :=
  fun n _ => if n = "b" then Transport.timeout else Transport.ok200 jEmpty

/-- Witness for claim C3: with two configured servers of which `b` times
out, the aggregate still keys both servers, `b` has a structured offline
entry, and `a`'s entry is unaffected. -/
theorem claim_C3_witness :
    ((get_all_servers_overview cfgAB netB).map Prod.fst = cfgAB.servers.map Prod.fst)
    ∧ dictGet (get_all_servers_overview cfgAB netB) "b" = some (overviewEntry cfgAB netB "b")
    ∧ overviewEntry cfgAB netB "a" = overviewEntry cfgAB netB "a"
    ∧ ((overviewEntry cfgAB netB "b").status = "offline"
       ∧ (overviewEntry cfgAB netB "b").hostname = none) := by
  have h := claim_C3 cfgAB netB netB "a" (by decide) (fun e => rfl)
  exact ⟨h.1, h.2.1 "b" (by decide), h.2.2.1,
    h.2.2.2 "b" "Request timed out" (by decide)⟩

/-- Claim C7.  `query_netdata` never raises past its own boundary (it is a
total function into `NResp`); for a configured server, a timeout becomes
the error value `Request timed out`, a non-200 status becomes the error
value `HTTP <code>`, any other transport/decoding exception becomes an
error value carrying the exception message, and only a 200 response with
decodable JSON yields the decoded payload. -/
theorem claim_C7 (cfg : Config) (net : String → String → Transport)
    (name endpoint : String) (h : (dictGet cfg.servers name).isSome) :
    (net name endpoint = Transport.timeout →
      query_netdata cfg net name endpoint = NResp.err "Request timed out")
    ∧ (∀ c, net name endpoint = Transport.httpStatus c →
      query_netdata cfg net name endpoint = NResp.err ("HTTP " ++ toString c))
    ∧ (∀ m, net name endpoint = Transport.exn m →
      query_netdata cfg net name endpoint = NResp.err m)
    ∧ (∀ j, net name endpoint = Transport.ok200 j →
      query_netdata cfg net name endpoint = NResp.ok j) := by
  rcases hg : dictGet cfg.servers name with _ | s
  · rw [hg] at h; exact absurd h (by simp)
  · refine ⟨fun ht => ?_, fun c hc => ?_, fun m hm => ?_, fun j hj => ?_⟩
    · simp [query_netdata, hg, ht]
    · simp [query_netdata, hg, hc]
    · simp [query_netdata, hg, hm]
    · simp [query_netdata, hg, hj]

/-- Witness for claim C7 on the demo configuration: server `b` is
configured and times out. -/
theorem claim_C7_witness :
    query_netdata cfgAB netB "b" "info" = NResp.err "Request timed out" :=
  (claim_C7 cfgAB netB "b" "info" (by decide)).1 (by decide)

/-- Result of the `get_network_stats` branch of `call_tool` (server.py
lines 516-548): either the single error dict returned when the `charts`
discovery call fails, or the full stats object. -/
inductive NetStatsOut where
  | error (msg : String)
  | ok (server_name : String) (context : String) (time_range_seconds : Int)
      (available_charts : List String) (network_data : List (String × Parsed))
  deriving DecidableEq

/-- The `data?chart=<id>&after=-<time_range>` endpoint string used by the
network-stats fan-out (server.py line 537). -/
def netDataEndpoint (chart : String) (tr : Int) : String :=
  "data?chart=" ++ chart ++ "&after=-" ++ toString tr

/-- The `get_network_stats` branch of `call_tool` (server.py lines
516-548), paired with the trace of netdata endpoints it queries, in
order.  The discovery call (`charts`) runs first; on a discovery error
the branch returns the single error dict having issued no data calls. -/
def get_network_stats (cfg : Config) (net : String → String → Transport)
    (name : String) (tr : Int) : NetStatsOut × List String :=
  let charts := query_netdata cfg net name "charts"
  match charts with
  | .err m => (.error m, ["charts"])
  | .ok j =>
    let network_charts := (j.charts.getD []).filter
      (fun id => id.startsWith "net." || id.startsWith "net_packets.")
    let network_data := network_charts.map
      (fun id => (id, parse_netdata_metric (query_netdata cfg net name (netDataEndpoint id tr))))
    (.ok name (get_server_context cfg name) tr network_charts network_data,
     "charts" :: network_charts.map (fun id => netDataEndpoint id tr))

/-- The `disk` part of the `get_server_health` result (server.py lines
486-503): either the per-chart dict, or the single error dict built in
the `else` branch. -/
inductive DiskOut where
  | derr (msg : String)
  | dok (entries : List (String × Parsed))
  deriving DecidableEq

/-- The result dict of the `get_server_health` branch of `call_tool`
(server.py lines 505-512).  Note the branch always returns this full
shape: a `charts` discovery failure only lands in the `disk` field. -/
structure HealthOut where
  server_name : String
  context : String
  info : NResp
  cpu : Parsed
  ram : Parsed
  disk : DiskOut
  deriving DecidableEq

/-- The `data?chart=<id>&after=-600` endpoint string used by the
disk-chart fan-out of `get_server_health` (server.py line 500). -/
def healthDiskEndpoint (chart : String) : String :=
  "data?chart=" ++ chart ++ "&after=-600"

/-- The `get_server_health` branch of `call_tool` (server.py lines
472-514), paired with the trace of netdata endpoints it queries, in
order: `info`, the CPU and RAM ranges, then the `charts` discovery, then
one data call per discovered `disk_space.*` chart. -/
def get_server_health (cfg : Config) (net : String → String → Transport)
    (name : String) : HealthOut × List String :=
  let info := query_netdata cfg net name "info"
  let cpu := parse_netdata_metric (query_netdata cfg net name "data?chart=system.cpu&after=-600")
  let ram := parse_netdata_metric (query_netdata cfg net name "data?chart=system.ram&after=-600")
  let charts := query_netdata cfg net name "charts"
  let baseTrace : List String :=
    ["info", "data?chart=system.cpu&after=-600", "data?chart=system.ram&after=-600", "charts"]
  match charts with
  | .ok j =>
    match j.charts with
    | some chartIds =>
      let disk_charts := chartIds.filter (fun id => id.startsWith "disk_space.")
      (⟨name, get_server_context cfg name, info, cpu, ram,
        .dok (disk_charts.map
          (fun id => (id, parse_netdata_metric (query_netdata cfg net name (healthDiskEndpoint id)))))⟩,
       baseTrace ++ disk_charts.map healthDiskEndpoint)
    | none =>
      (⟨name, get_server_context cfg name, info, cpu, ram,
        .derr "Unable to retrieve disk charts"⟩, baseTrace)
  | .err m =>
    (⟨name, get_server_context cfg name, info, cpu, ram, .derr m⟩, baseTrace)

/-- One-server demo configuration for the discovery-failure scenario. -/
def cfgSrv : Config := ⟨[("srv", ⟨none, none⟩)]⟩

/-- Demo oracle for which only the `charts` discovery endpoint fails
(HTTP 500); every other endpoint answers 200 with an empty payload. -/
def netChartsFail : String → String → Transport :=
  fun _ e => if e = "charts" then Transport.httpStatus 500 else Transport.ok200 jEmpty

/-- Counterexample to claim C4 as stated.  The claim says that for BOTH
discovery-then-fan-out operations a discovery failure makes the whole
operation return a single error.  For `get_server_health` this is false:
with the `charts` query failing (HTTP 500) and everything else
succeeding, the operation still returns the fully populated result
object — online info, parsed CPU and RAM series — with only its `disk`
field carrying the error, and it issues no disk data calls. -/
theorem claim_C4_counterexample :
    get_server_health cfgSrv netChartsFail "srv"
      = (⟨"srv", " (unknown role)", NResp.ok jEmpty,
          Parsed.pok [] [] 0 none none [] [] none,
          Parsed.pok [] [] 0 none none [] [] none,
          DiskOut.derr "HTTP 500"⟩,
         ["info", "data?chart=system.cpu&after=-600", "data?chart=system.ram&after=-600",
          "charts"]) := by
  decide

/-- Claim C4, amended.  On a `charts` discovery failure:
`get_network_stats` short-circuits the whole operation, returning the
single error and issuing no per-identifier data calls; `get_server_health`
short-circuits only its disk fan-out — it issues no disk data calls and
stores the single error in its `disk` field, while the already-fetched
info/CPU/RAM results are still returned. -/
theorem claim_C4 (cfg : Config) (net : String → String → Transport)
    (name : String) (tr : Int) (m : String)
    (h : query_netdata cfg net name "charts" = NResp.err m) :
    get_network_stats cfg net name tr = (.error m, ["charts"])
    ∧ (get_server_health cfg net name).1.disk = .derr m
    ∧ (get_server_health cfg net name).1.cpu
        = parse_netdata_metric (query_netdata cfg net name "data?chart=system.cpu&after=-600")
    ∧ (get_server_health cfg net name).2
        = ["info", "data?chart=system.cpu&after=-600", "data?chart=system.ram&after=-600",
           "charts"] := by
  refine ⟨?_, ?_, ?_, ?_⟩
  · simp [get_network_stats, h]
  · simp [get_server_health, h]
  · simp [get_server_health, h]
  · simp [get_server_health, h]

/-- Witness for the amended claim C4 on the demo configuration whose
`charts` discovery fails with HTTP 500. -/
theorem claim_C4_witness :
    get_network_stats cfgSrv netChartsFail "srv" 600 = (.error "HTTP 500", ["charts"])
    ∧ (get_server_health cfgSrv netChartsFail "srv").1.disk = .derr "HTTP 500"
    ∧ (get_server_health cfgSrv netChartsFail "srv").1.cpu
        = parse_netdata_metric
            (query_netdata cfgSrv netChartsFail "srv" "data?chart=system.cpu&after=-600")
    ∧ (get_server_health cfgSrv netChartsFail "srv").2
        = ["info", "data?chart=system.cpu&after=-600", "data?chart=system.ram&after=-600",
           "charts"] :=
  claim_C4 cfgSrv netChartsFail "srv" 600 "HTTP 500" (by decide)

/-- Python `text.find(pat)` at character level (also `pat in text` via
`isSome`): the least index at which `pat` occurs, `none` when absent. -/
def findSub (l pat : List Char) : Option Nat :=
  if pat <+: l then some 0
  else
    match l with
    | [] => none
    | _ :: t => (findSub t pat).map (· + 1)

/-- Python `text.find(pat, j)`: first occurrence at or after index `j`,
as an absolute index. -/
def findSubFrom (l pat : List Char) (j : Nat) : Option Nat :=
  (findSub (l.drop j) pat).map (· + j)

theorem findSub_some_occurs (l pat : List Char) (i : Nat)
    (h : findSub l pat = some i) : pat <+: l.drop i := by
  induction l generalizing i with
  | nil =>
    rw [findSub] at h
    by_cases hp : pat <+: ([] : List Char)
    · rw [if_pos hp] at h
      obtain rfl : (0 : Nat) = i := by simpa using h
      simpa using hp
    · rw [if_neg hp] at h
      simp at h
  | cons c t ih =>
    rw [findSub] at h
    by_cases hp : pat <+: c :: t
    · rw [if_pos hp] at h
      obtain rfl : (0 : Nat) = i := by simpa using h
      simpa using hp
    · rw [if_neg hp] at h
      rcases hf : findSub t pat with _ | j
      · rw [hf] at h; simp at h
      · rw [hf] at h
        obtain rfl : j + 1 = i := by simpa using h
        simpa [List.drop_succ_cons] using ih j hf

theorem findSub_some_min (l pat : List Char) (i : Nat)
    (h : findSub l pat = some i) : ∀ j, j < i → ¬ pat <+: l.drop j := by
  induction l generalizing i with
  | nil =>
    intro j hj
    rw [findSub] at h
    by_cases hp : pat <+: ([] : List Char)
    · rw [if_pos hp] at h
      obtain rfl : (0 : Nat) = i := by simpa using h
      omega
    · rw [if_neg hp] at h; simp at h
  | cons c t ih =>
    intro j hj
    rw [findSub] at h
    by_cases hp : pat <+: c :: t
    · rw [if_pos hp] at h
      obtain rfl : (0 : Nat) = i := by simpa using h
      omega
    · rw [if_neg hp] at h
      rcases hf : findSub t pat with _ | i2
      · rw [hf] at h; simp at h
      · rw [hf] at h
        obtain rfl : i2 + 1 = i := by simpa using h
        cases j with
        | zero => simpa using hp
        | succ j2 =>
          simp only [List.drop_succ_cons]
          exact ih i2 hf j2 (by omega)

theorem findSub_complete (l pat : List Char) (j : Nat) (h : pat <+: l.drop j) :
    ∃ i, i ≤ j ∧ findSub l pat = some i := by
  induction l generalizing j with
  | nil =>
    rw [List.drop_nil] at h
    have hp : pat = [] := List.eq_nil_of_prefix_nil h
    subst hp
    exact ⟨0, Nat.zero_le _, by rw [findSub, if_pos List.nil_prefix]⟩
  | cons c t ih =>
    by_cases hp : pat <+: c :: t
    · exact ⟨0, Nat.zero_le _, by rw [findSub, if_pos hp]⟩
    · cases j with
      | zero => rw [List.drop_zero] at h; exact absurd h hp
      | succ j2 =>
        rw [List.drop_succ_cons] at h
        obtain ⟨i2, hi2, hf⟩ := ih j2 h
        refine ⟨i2 + 1, by omega, ?_⟩
        rw [findSub, if_neg hp, hf]
        rfl

theorem findSub_none_iff (l pat : List Char) :
    findSub l pat = none ↔ ∀ j, ¬ pat <+: l.drop j := by
  constructor
  · intro h j hp
    obtain ⟨i, _, hf⟩ := findSub_complete l pat j hp
    rw [h] at hf
    simp at hf
  · intro h
    rcases hf : findSub l pat with _ | i
    · rfl
    · exact absurd (findSub_some_occurs l pat i hf) (h i)

theorem drop_prefix_append (a b : List Char) (j : Nat) :
    a.drop j <+: (a ++ b).drop j := by
  rw [List.drop_append_eq_append_drop]
  exact List.prefix_append _ _

theorem findSub_append_left (a b pat : List Char) (i : Nat)
    (h : findSub a pat = some i) : findSub (a ++ b) pat = some i := by
  have hocc : pat <+: a.drop i := findSub_some_occurs a pat i h
  have hocc2 : pat <+: (a ++ b).drop i := hocc.trans (drop_prefix_append a b i)
  obtain ⟨i2, hi2, hf⟩ := findSub_complete (a ++ b) pat i hocc2
  rcases Nat.lt_or_ge i2 i with hlt | hge
  · exfalso
    have h1 : pat <+: (a ++ b).drop i2 := findSub_some_occurs _ _ _ hf
    have hlen : pat.length ≤ a.length - i := by
      have := hocc.length_le
      simpa [List.length_drop] using this
    have hlen2 : pat.length ≤ (a.drop i2).length := by
      rw [List.length_drop]; omega
    have h2 : pat <+: a.drop i2 :=
      List.prefix_of_prefix_length_le h1 (drop_prefix_append a b i2) hlen2
    exact findSub_some_min a pat i h i2 hlt h2
  · obtain rfl : i2 = i := Nat.le_antisymm hi2 hge
    exact hf

theorem findSubFrom_append_left (a b pat : List Char) (j de : Nat)
    (h : findSubFrom a pat j = some de) : findSubFrom (a ++ b) pat j = some de := by
  unfold findSubFrom at h ⊢
  rcases hf : findSub (a.drop j) pat with _ | i
  · rw [hf] at h; simp at h
  · rw [hf] at h
    rw [List.drop_append_eq_append_drop,
      findSub_append_left (a.drop j) _ pat i hf]
    exact h

theorem findSub_cons_ne (c : Char) (t : List Char) (p : Char) (ps : List Char)
    (h : p ≠ c) :
    findSub (c :: t) (p :: ps) = (findSub t (p :: ps)).map (· + 1) := by
  have hnp : ¬ (p :: ps <+: c :: t) := fun hp => h (List.cons_prefix_cons.mp hp).1
  rw [findSub, if_neg hnp]

theorem findSub_replicate_append (n : Nat) (x p : Char) (ps b : List Char)
    (h : p ≠ x) :
    findSub (List.replicate n x ++ b) (p :: ps) = (findSub b (p :: ps)).map (· + n) := by
  induction n with
  | zero =>
    simp only [List.replicate_zero, List.nil_append]
    rcases hf : findSub b (p :: ps) with _ | i <;> simp [hf]
  | succ n ih =>
    rw [List.replicate_succ, List.cons_append, findSub_cons_ne x _ p ps h, ih]
    rcases hf : findSub b (p :: ps) with _ | i <;> simp [hf, Nat.add_assoc]

theorem findSub_not_mem_none (l : List Char) (p : Char) (ps : List Char)
    (h : p ∉ l) : findSub l (p :: ps) = none := by
  induction l with
  | nil =>
    have hnp : ¬ (p :: ps <+: ([] : List Char)) := fun hp => by
      simpa using List.eq_nil_of_prefix_nil hp
    rw [findSub, if_neg hnp]
  | cons c t ih =>
    simp only [List.mem_cons, not_or] at h
    rw [findSub_cons_ne c t p ps h.1, ih h.2]
    rfl

/-- The event marker searched for by `query_dozzle_sse`
(server.py line 104). -/
def EVENT_MARKER : List Char := "event: containers-changed".data

/-- The data marker searched for by `query_dozzle_sse`
(server.py line 104); `data_start` is its index plus 6, pointing at the
opening bracket. -/
def DATA_MARKER : List Char := "data: [".data

/-- The SSE frame terminator (blank line, server.py line 108). -/
def SSE_TERM : List Char := ['\n', '\n']

/-- Both SSE markers are present in the accumulated text (the Python
condition at server.py line 104). -/
def bothMarkers (t : List Char) : Prop :=
  findSub t EVENT_MARKER ≠ none ∧ findSub t DATA_MARKER ≠ none

/-- Result of one pass of the accumulation loop of `query_dozzle_sse`
over the decoded frame payload or its failures.  The JSON decoding and
field projection applied to a complete frame (server.py lines 116-135)
are deterministic in the extracted payload string, so the payload is kept
raw here. -/
inductive SseOut where
  | frame (payload : List Char)
  | tooLarge
  | noEvent
  deriving DecidableEq

/-- The body of one iteration of the chunk loop of `query_dozzle_sse`
(server.py lines 99-139) applied to the accumulated text: if both markers
are present, look for the blank-line terminator after `data_start =
find(data marker) + 6`; a found frame returns its stripped payload slice,
a missing terminator continues (returns `none`).  Only when the markers
are NOT both present is the 500000-byte cap checked, exactly as the
`continue` in the source skips that check. -/
def sseStep (text : List Char) : Option SseOut :=
  match findSub text EVENT_MARKER, findSub text DATA_MARKER with
  | some _, some i =>
    match findSubFrom text SSE_TERM (i + 6) with
    | none => none
    | some de => some (SseOut.frame (pyStrip ((text.drop (i + 6)).take (de - (i + 6)))))
  | _, _ => if text.length > 500000 then some SseOut.tooLarge else none

/-- The accumulation loop of `query_dozzle_sse` (server.py lines 98-141):
starting from buffer `buf`, append each chunk, run the iteration body,
and return `No containers-changed event found` (modelled `noEvent`) when
the stream ends. -/
def query_dozzle_sse_loop (buf : List Char) : List (List Char) → SseOut
  | [] => SseOut.noEvent
  | c :: cs =>
    match sseStep (buf ++ c) with
    | some out => out
    | none => query_dozzle_sse_loop (buf ++ c) cs

theorem take_drop_append_eq (a b : List Char) (ds n : Nat)
    (hn : n ≤ a.length - ds) :
    ((a ++ b).drop ds).take n = (a.drop ds).take n := by
  rw [List.drop_append_eq_append_drop, List.take_append_eq_append_take]
  have h0 : n - (a.drop ds).length = 0 := by
    rw [List.length_drop]; omega
  rw [h0, List.take_zero, List.append_nil]

theorem sseStep_frame_mono (t r pl : List Char)
    (h : sseStep t = some (SseOut.frame pl)) :
    sseStep (t ++ r) = some (SseOut.frame pl) := by
  rcases hE : findSub t EVENT_MARKER with _ | e
  · simp only [sseStep, hE] at h
    split at h <;> simp at h
  · rcases hD : findSub t DATA_MARKER with _ | i
    · simp only [sseStep, hE, hD] at h
      split at h <;> simp at h
    · rcases hT : findSubFrom t SSE_TERM (i + 6) with _ | de
      · simp only [sseStep, hE, hD, hT] at h
        simp at h
      · simp only [sseStep, hE, hD, hT, Option.some.injEq, SseOut.frame.injEq] at h
        have hb : de - (i + 6) ≤ t.length - (i + 6) := by
          unfold findSubFrom at hT
          rcases hf0 : findSub (t.drop (i + 6)) SSE_TERM with _ | d0
          · rw [hf0] at hT; simp at hT
          · rw [hf0] at hT
            have hde : d0 + (i + 6) = de := by simpa using hT
            have hocc := findSub_some_occurs _ _ _ hf0
            have hlen := hocc.length_le
            simp only [List.length_drop, SSE_TERM, List.length_cons,
              List.length_nil] at hlen
            omega
        have hE2 := findSub_append_left t r EVENT_MARKER e hE
        have hD2 := findSub_append_left t r DATA_MARKER i hD
        have hT2 := findSubFrom_append_left t r SSE_TERM (i + 6) de hT
        simp only [sseStep, hE2, hD2, hT2, Option.some.injEq, SseOut.frame.injEq]
        rw [take_drop_append_eq t r (i + 6) (de - (i + 6)) hb]
        exact h

theorem sseStep_spec (t : List Char) :
    sseStep t = none
    ∨ (∃ pl, sseStep t = some (SseOut.frame pl))
    ∨ (sseStep t = some SseOut.tooLarge ∧ ¬ bothMarkers t ∧ t.length > 500000) := by
  rcases hE : findSub t EVENT_MARKER with _ | e <;>
    rcases hD : findSub t DATA_MARKER with _ | i
  · by_cases hl : t.length > 500000
    · exact Or.inr (Or.inr ⟨by simp [sseStep, hE, hD, hl], fun hb => hb.1 hE, hl⟩)
    · exact Or.inl (by simp [sseStep, hE, hD, hl])
  · by_cases hl : t.length > 500000
    · exact Or.inr (Or.inr ⟨by simp [sseStep, hE, hD, hl], fun hb => hb.1 hE, hl⟩)
    · exact Or.inl (by simp [sseStep, hE, hD, hl])
  · by_cases hl : t.length > 500000
    · exact Or.inr (Or.inr ⟨by simp [sseStep, hE, hD, hl], fun hb => hb.2 hD, hl⟩)
    · exact Or.inl (by simp [sseStep, hE, hD, hl])
  · rcases hT : findSubFrom t SSE_TERM (i + 6) with _ | de
    · exact Or.inl (by simp [sseStep, hE, hD, hT])
    · exact Or.inr (Or.inl ⟨pyStrip ((t.drop (i + 6)).take (de - (i + 6))),
        by simp [sseStep, hE, hD, hT]⟩)

theorem sseLoop_eq_single (cs : List (List Char)) : ∀ buf : List Char,
    sseStep buf = none →
    (∀ k, 1 ≤ k → k ≤ cs.length → ¬ bothMarkers (buf ++ (cs.take k).flatten) →
      (buf ++ (cs.take k).flatten).length ≤ 500000) →
    query_dozzle_sse_loop buf cs = query_dozzle_sse_loop [] [buf ++ cs.flatten] := by
  induction cs with
  | nil =>
    intro buf hpend _
    simp [query_dozzle_sse_loop, hpend]
  | cons c cs ih =>
    intro buf hpend H
    rcases hstep : sseStep (buf ++ c) with _ | out
    · have hLHS : query_dozzle_sse_loop buf (c :: cs) = query_dozzle_sse_loop (buf ++ c) cs := by
        simp [query_dozzle_sse_loop, hstep]
      rw [hLHS, ih (buf ++ c) hstep ?hsub]
      · simp [List.flatten_cons, List.append_assoc]
      case hsub =>
        intro k h1 h2 hm
        have h3 := H (k + 1) (by omega) (by simp only [List.length_cons]; omega)
        simp only [List.take_succ_cons, List.flatten_cons, ← List.append_assoc] at h3
        exact h3 hm
    · have hLHS : query_dozzle_sse_loop buf (c :: cs) = out := by
        simp [query_dozzle_sse_loop, hstep]
      rcases sseStep_spec (buf ++ c) with hn | ⟨pl, hf⟩ | ⟨htl, hnb, hlen⟩
      · rw [hstep] at hn; simp at hn
      · rw [hstep] at hf
        obtain rfl : out = SseOut.frame pl := by simpa using hf
        rw [hLHS]
        have hS := sseStep_frame_mono (buf ++ c) cs.flatten pl hstep
        simp only [query_dozzle_sse_loop, List.nil_append, List.flatten_cons,
          ← List.append_assoc, hS]
      · exfalso
        have h1 := H 1 (by omega) (by simp)
          (by simpa [List.take_succ_cons, List.take_zero, List.flatten_cons,
            List.flatten_nil, List.append_nil] using hnb)
        simp only [List.take_succ_cons, List.take_zero, List.flatten_cons,
          List.flatten_nil, List.append_nil] at h1
        omega

theorem findSubFrom_eval_some (l pat : List Char) (j i : Nat)
    (h : findSub (l.drop j) pat = some i) : findSubFrom l pat j = some (i + j) := by
  unfold findSubFrom
  rw [h]
  rfl

theorem findSubFrom_eval_none (l pat : List Char) (j : Nat)
    (h : findSub (l.drop j) pat = none) : findSubFrom l pat j = none := by
  unfold findSubFrom
  rw [h]
  rfl

theorem sseStep_noMarkersE (t : List Char) (hE : findSub t EVENT_MARKER = none)
    (hl : t.length > 500000) : sseStep t = some SseOut.tooLarge := by
  rcases hD : findSub t DATA_MARKER with _ | i
  · simp [sseStep, hE, hD, hl]
  · simp [sseStep, hE, hD, hl]

theorem sseStep_markers_noTerm (t : List Char) (e i : Nat)
    (hE : findSub t EVENT_MARKER = some e) (hD : findSub t DATA_MARKER = some i)
    (hT : findSubFrom t SSE_TERM (i + 6) = none) : sseStep t = none := by
  simp [sseStep, hE, hD, hT]

theorem sseStep_markers_frame (t : List Char) (e i de : Nat)
    (hE : findSub t EVENT_MARKER = some e) (hD : findSub t DATA_MARKER = some i)
    (hT : findSubFrom t SSE_TERM (i + 6) = some de) :
    sseStep t = some (SseOut.frame (pyStrip ((t.drop (i + 6)).take (de - (i + 6))))) := by
  simp [sseStep, hE, hD, hT]

theorem query_dozzle_sse_loop_nil (buf : List Char) :
    query_dozzle_sse_loop buf [] = SseOut.noEvent := rfl

theorem query_dozzle_sse_loop_cons_some (buf c : List Char) (cs : List (List Char))
    (out : SseOut) (h : sseStep (buf ++ c) = some out) :
    query_dozzle_sse_loop buf (c :: cs) = out := by
  simp [query_dozzle_sse_loop, h]

theorem query_dozzle_sse_loop_cons_none (buf c : List Char) (cs : List (List Char))
    (h : sseStep (buf ++ c) = none) :
    query_dozzle_sse_loop buf (c :: cs) = query_dozzle_sse_loop (buf ++ c) cs := by
  simp [query_dozzle_sse_loop, h]

/-- 500001 bytes of filler that contain no marker and no terminator. -/
def sseChunkA : List Char := List.replicate 500001 'x'

/-- A complete, well-terminated `containers-changed` frame. -/
def sseChunkB : List Char := "event: containers-changed\ndata: [1]\n\n".data

/-- A frame opening (both markers present) with no terminator yet. -/
def sseHead : List Char := "event: containers-changed\ndata: [".data

theorem sseChunkA_length : sseChunkA.length = 500001 := by
  rw [show sseChunkA = List.replicate 500001 'x' from rfl, List.length_replicate]

theorem findSub_sseChunkA_none (p : Char) (ps : List Char) (hp : p ≠ 'x') :
    findSub sseChunkA (p :: ps) = none := by
  apply findSub_not_mem_none
  intro hmem
  rw [show sseChunkA = List.replicate 500001 'x' from rfl, List.mem_replicate] at hmem
  exact hp hmem.2

/-- Counterexample to claim C5 as stated.  Chunk-boundary independence
fails: delivering 500001 filler bytes and then a complete frame as one
chunk yields the frame, but delivering the same bytes as two chunks hits
the 500000-byte cap while the markers are still absent and yields the
`Response too large` error instead. -/
theorem claim_C5_counterexample :
    query_dozzle_sse_loop [] [sseChunkA, sseChunkB] = SseOut.tooLarge
    ∧ query_dozzle_sse_loop [] [sseChunkA ++ sseChunkB] = SseOut.frame "[1]".data
    ∧ query_dozzle_sse_loop [] [sseChunkA, sseChunkB]
        ≠ query_dozzle_sse_loop [] [sseChunkA ++ sseChunkB] := by
  have hEA : findSub sseChunkA EVENT_MARKER = none := by
    rw [show EVENT_MARKER = 'e' :: "vent: containers-changed".data from by decide]
    exact findSub_sseChunkA_none 'e' _ (by decide)
  have stepA : sseStep sseChunkA = some SseOut.tooLarge :=
    sseStep_noMarkersE sseChunkA hEA (by rw [sseChunkA_length]; norm_num)
  have hEAB : findSub (sseChunkA ++ sseChunkB) EVENT_MARKER = some 500001 := by
    rw [show EVENT_MARKER = 'e' :: "vent: containers-changed".data from by decide,
      show sseChunkA = List.replicate 500001 'x' from rfl,
      findSub_replicate_append 500001 'x' 'e' _ sseChunkB (by decide),
      show findSub sseChunkB ('e' :: "vent: containers-changed".data) = some 0 from by decide]
    rfl
  have hDAB : findSub (sseChunkA ++ sseChunkB) DATA_MARKER = some 500027 := by
    rw [show DATA_MARKER = 'd' :: "ata: [".data from by decide,
      show sseChunkA = List.replicate 500001 'x' from rfl,
      findSub_replicate_append 500001 'x' 'd' _ sseChunkB (by decide),
      show findSub sseChunkB ('d' :: "ata: [".data) = some 26 from by decide]
    rfl
  have hdropAB : (sseChunkA ++ sseChunkB).drop 500033 = "[1]\n\n".data := by
    rw [List.drop_append_eq_append_drop,
      List.drop_eq_nil_of_le (by rw [sseChunkA_length]; norm_num : sseChunkA.length ≤ 500033),
      sseChunkA_length]
    simp only [List.nil_append]
    norm_num
    decide
  have hTAB : findSubFrom (sseChunkA ++ sseChunkB) SSE_TERM 500033 = some 500036 := by
    have hd : findSub ((sseChunkA ++ sseChunkB).drop 500033) SSE_TERM = some 3 := by
      rw [hdropAB]; decide
    rw [findSubFrom_eval_some _ SSE_TERM 500033 3 hd]
  have stepAB : sseStep (sseChunkA ++ sseChunkB) = some (SseOut.frame "[1]".data) := by
    have harith : (500027 + 6 : Nat) = 500033 := by norm_num
    have h0 := sseStep_markers_frame (sseChunkA ++ sseChunkB) 500001 500027 500036
      hEAB hDAB (by rw [harith]; exact hTAB)
    rw [h0, harith, hdropAB, show (500036 - 500033 : Nat) = 3 from by norm_num]
    decide
  have l1 : query_dozzle_sse_loop [] [sseChunkA, sseChunkB] = SseOut.tooLarge :=
    query_dozzle_sse_loop_cons_some [] sseChunkA [sseChunkB] SseOut.tooLarge
      (by rw [List.nil_append]; exact stepA)
  have l2 : query_dozzle_sse_loop [] [sseChunkA ++ sseChunkB] = SseOut.frame "[1]".data :=
    query_dozzle_sse_loop_cons_some [] (sseChunkA ++ sseChunkB) [] _
      (by rw [List.nil_append]; exact stepAB)
  exact ⟨l1, l2, by rw [l1, l2]; decide⟩

/-- Claim C5, amended.  Chunk-boundary independence holds for every
stream whose accumulated buffer, at each chunk boundary at which the
event and data markers are not both yet present, stays within the
500000-byte cap: under that condition, feeding the chunks one at a time
yields the same result as feeding their concatenation in one chunk.  (The
counterexample shows the cap condition is necessary: the size check sits
on the no-marker path only, so an oversized single-chunk delivery can
still return a frame.) -/
theorem claim_C5 (cs : List (List Char))
    (H : ∀ k, 1 ≤ k → k ≤ cs.length → ¬ bothMarkers ((cs.take k).flatten) →
      ((cs.take k).flatten).length ≤ 500000) :
    query_dozzle_sse_loop [] cs = query_dozzle_sse_loop [] [cs.flatten] := by
  have h := sseLoop_eq_single cs [] (by decide) ?H2
  · simpa using h
  case H2 =>
    intro k h1 h2 hm
    simp only [List.nil_append] at hm ⊢
    exact H k h1 h2 hm

/-- Witness for the amended claim C5 on a small two-chunk stream with no
markers. -/
theorem claim_C5_witness :
    query_dozzle_sse_loop [] ["abc".data, "def".data]
      = query_dozzle_sse_loop [] [(["abc".data, "def".data] : List (List Char)).flatten] := by
  apply claim_C5
  intro k h1 h2 hm
  have hk : k = 1 ∨ k = 2 := by
    simp only [List.length_cons, List.length_nil] at h2
    omega
  rcases hk with rfl | rfl <;> decide

/-- Claim C6 evaluated at its failing input.  The claim says a stream
whose buffer exceeds 500000 bytes before any complete frame is found
fails with the `stream too large` error.  The code checks the cap only
when the two markers are not both present (the `continue` at server.py
line 111 skips the check at line 138), so a stream that opens a frame and
then feeds 500001 unterminated filler bytes is buffered without bound:
the loop ends with `No containers-changed event found` instead of the
size error, although the buffer reached 500034 bytes with no complete
frame. -/
theorem claim_C6 :
    query_dozzle_sse_loop [] [sseHead, sseChunkA] = SseOut.noEvent
    ∧ 500000 < (sseHead ++ sseChunkA).length := by
  have h1E : findSub sseHead EVENT_MARKER = some 0 := by decide
  have h1D : findSub sseHead DATA_MARKER = some 26 := by decide
  have harith : (26 + 6 : Nat) = 32 := by norm_num
  have hT1 : findSubFrom sseHead SSE_TERM 32 = none :=
    findSubFrom_eval_none sseHead SSE_TERM 32 (by decide)
  have stepH : sseStep sseHead = none :=
    sseStep_markers_noTerm sseHead 0 26 h1E h1D (by rw [harith]; exact hT1)
  have h2E : findSub (sseHead ++ sseChunkA) EVENT_MARKER = some 0 :=
    findSub_append_left sseHead sseChunkA EVENT_MARKER 0 h1E
  have h2D : findSub (sseHead ++ sseChunkA) DATA_MARKER = some 26 :=
    findSub_append_left sseHead sseChunkA DATA_MARKER 26 h1D
  have hfd : findSub ((sseHead ++ sseChunkA).drop 32) SSE_TERM = none := by
    rw [List.drop_append_eq_append_drop,
      show sseHead.drop 32 = "[".data from by decide,
      show sseHead.length = 33 from by decide,
      show (32 - 33 : Nat) = 0 from by norm_num, List.drop_zero,
      show ("[".data ++ sseChunkA) = '[' :: sseChunkA from rfl,
      show SSE_TERM = '\n' :: ['\n'] from rfl]
    apply findSub_not_mem_none
    intro hmem
    rcases List.mem_cons.mp hmem with he | hmem2
    · exact absurd he (by decide)
    · rw [show sseChunkA = List.replicate 500001 'x' from rfl,
        List.mem_replicate] at hmem2
      exact absurd hmem2.2 (by decide)
  have h2T : findSubFrom (sseHead ++ sseChunkA) SSE_TERM 32 = none :=
    findSubFrom_eval_none _ SSE_TERM 32 hfd
  have step2 : sseStep (sseHead ++ sseChunkA) = none :=
    sseStep_markers_noTerm _ 0 26 h2E h2D (by rw [harith]; exact h2T)
  constructor
  · rw [query_dozzle_sse_loop_cons_none [] sseHead [sseChunkA]
      (by rw [List.nil_append]; exact stepH), List.nil_append,
      query_dozzle_sse_loop_cons_none sseHead sseChunkA [] step2]
    exact query_dozzle_sse_loop_nil _
  · rw [List.length_append, show sseHead.length = 33 from by decide, sseChunkA_length]
    norm_num
